import Mathlib

/-!
Shallow embedding of the branch-comparison engine of the lighthouse test
suite (`src/server.js`): the function `compareBranches` (lines 169-279)
together with its helpers `getCategoryDisplayName`, `getMetricDisplayName`,
`formatMetricValue`, `formatMetricChange`, `getScoreImpact` and
`getMetricImpact` (lines 281-338).

Modelling conventions:
* JavaScript numbers are modelled as exact rationals `ℚ` (the engine only
  subtracts, divides, compares and rounds; `NaN`/`Infinity` are not
  producible by the report-building code, which reads JSON and substitutes
  `0` for missing values).
* A JS object field that may be absent is an `Option`; reading a property
  of `undefined` throws a `TypeError`, which we model with `Except Unit`.
* `Math.round x` is `⌊x + 1/2⌋` (JS rounds half-way cases towards +∞) and
  `x.toFixed 3` takes the sign of `x`, then rounds `|x| * 1000` half-up to
  an integer and prints it with exactly three fractional digits, as the
  ECMAScript specification of `Number.prototype.toFixed` prescribes
  (ties pick the larger integer).
* JS objects such as `result.scores` are association lists in insertion
  order (`Object.entries` enumerates string keys in insertion order); the
  objects built by this program have pairwise distinct keys.
* An audit report's `error` field, when present, is the message of a
  thrown `Error`; the check `if (result1.error || ...)` tests JS
  truthiness, i.e. that the string is non-empty.
-/

/-- Value stored under one key of a `scores` / `metrics` object: a number,
or anything for which `typeof v === 'number'` is false (including the
`undefined` produced by reading an absent property). -/
inductive JsVal where
  | num (q : ℚ)
  | other
  deriving DecidableEq, Repr

/-- One per-URL audit report, as produced by `runLighthouseForUrls`:
either a scored report (`scores` and `metrics` present) or an error
report (`error` present).  All fields are optional here because
`compareBranches` guards against their absence itself. -/
structure Report where
  url : String
  error : Option String := none
  scores : Option (List (String × JsVal)) := none
  metrics : Option (List (String × JsVal)) := none
  deriving DecidableEq, Repr

/-- Truthiness of the `error` field: absent (`undefined`) and the empty
string are falsy, any other string is truthy. -/
def errTruthy : Option String → Bool
  | none => false
  | some s => s != ""

/-- The spec's data-model invariant on audit reports: an error report
carries no `scores` and no `metrics` ("a report is either fully scored or
an error report; never partially populated").  Every report built by
`runLighthouseForUrls` satisfies this. -/
def WFReport (r : Report) : Prop :=
  r.error.isSome → r.scores = none ∧ r.metrics = none

/-- Property access `obj[key]` on a JS object: the stored value, or
`undefined` (a non-number) when the key is absent. -/
def jsLookup (m : List (String × JsVal)) (k : String) : JsVal :=
  match m.lookup k with
  | some v => v
  | none => .other

/-- `Math.round`: round half-way cases towards positive infinity. -/
def jsRound (q : ℚ) : Int := ⌊q + 1/2⌋

/-- Decimal digits of a natural number, most significant first, prepended
to an accumulator.  The first argument is structural-recursion fuel; any
fuel of at least the number of decimal digits yields all of them. -/
def natDigitsGo : Nat → Nat → List Char → List Char
  | 0, _, acc => acc
  | fuel + 1, n, acc =>
      if n = 0 then acc
      else natDigitsGo fuel (n / 10) (Nat.digitChar (n % 10) :: acc)

/-- Decimal rendering of a natural number, as JS `String(n)` prints it. -/
def natToString (n : Nat) : String :=
  if n = 0 then "0" else ⟨natDigitsGo (n + 1) n []⟩

/-- Decimal rendering of an integer, as JS `String(i)` prints it. -/
def intToString (i : Int) : String :=
  if i < 0 then "-" ++ natToString (-i).toNat else natToString i.toNat

/-- The last three decimal digits of `k`, zero padded: the fractional part
printed by `toFixed(3)` once the value has been scaled to an integer. -/
def pad3 (k : Nat) : String :=
  ⟨[Nat.digitChar (k / 100 % 10), Nat.digitChar (k / 10 % 10), Nat.digitChar (k % 10)]⟩

/-- `x.toFixed(3)`: sign of `x`, then `|x| * 1000` rounded half-up and
printed with exactly three digits after the decimal point. -/
def toFixed3 (q : ℚ) : String :=
  let m := (⌊|q| * 1000 + 1/2⌋).toNat
  (if q < 0 then "-" else "") ++ natToString (m / 1000) ++ "." ++ pad3 (m % 1000)

/-- Lines 281-289 of `src/server.js`: category key to display name, with
unknown keys passed through unchanged. -/
def getCategoryDisplayName (category : String) : String :=
  if category = "performance" then "Performance"
  else if category = "accessibility" then "Zugänglichkeit"
  else if category = "best-practices" then "Best Practices"
  else if category = "seo" then "SEO"
  else category

/-- Lines 291-300 of `src/server.js`: metric key to display name, with
unknown keys passed through unchanged. -/
def getMetricDisplayName (metric : String) : String :=
  if metric = "first-contentful-paint" then "First Contentful Paint (FCP)"
  else if metric = "largest-contentful-paint" then "Largest Contentful Paint (LCP)"
  else if metric = "speed-index" then "Speed Index"
  else if metric = "cumulative-layout-shift" then "Cumulative Layout Shift (CLS)"
  else if metric = "total-blocking-time" then "Total Blocking Time (TBT)"
  else metric

/-- Lines 302-307 of `src/server.js`: `cumulative-layout-shift` is printed
with `toFixed(3)` and no unit, every other metric as `Math.round(value) + 'ms'`. -/
def formatMetricValue (metric : String) (value : ℚ) : String :=
  if metric = "cumulative-layout-shift" then toFixed3 value
  else intToString (jsRound value) ++ "ms"

/-- Lines 309-315 of `src/server.js`: like `formatMetricValue` but with a
leading `+` when the change is strictly positive. -/
def formatMetricChange (metric : String) (change : ℚ) : String :=
  let pfx := if change > 0 then "+" else ""
  if metric = "cumulative-layout-shift" then pfx ++ toFixed3 change
  else pfx ++ intToString (jsRound change) ++ "ms"

/-- Lines 317-322 of `src/server.js`: impact bucket of an absolute score
change. -/
def getScoreImpact (change : ℚ) : String :=
  if change ≥ 20 then "Hoch"
  else if change ≥ 10 then "Mittel"
  else if change ≥ 5 then "Niedrig"
  else "Minimal"

/-- Lines 324-338 of `src/server.js`: impact bucket of an absolute metric
change; `cumulative-layout-shift` uses absolute thresholds, the other
metrics the percentage change relative to the baseline value. -/
def getMetricImpact (metric : String) (absChange baseline : ℚ) : String :=
  if metric = "cumulative-layout-shift" then
    if absChange ≥ 0.25 then "Hoch"
    else if absChange ≥ 0.1 then "Mittel"
    else if absChange ≥ 0.05 then "Niedrig"
    else "Minimal"
  else
    let changePercent := if baseline > 0 then absChange / baseline * 100 else 0
    if changePercent ≥ 50 then "Hoch"
    else if changePercent ≥ 25 then "Mittel"
    else if changePercent ≥ 10 then "Niedrig"
    else "Minimal"

/-- The `changeObj` built for one score category, lines 204-212. -/
structure ScoreDelta where
  category : String
  baseline : ℚ
  comparison : ℚ
  change : ℚ
  improvement : Bool
  changePercent : Int
  impact : String
  deriving DecidableEq, Repr

/-- The `changeObj` built for one metric, lines 230-241. -/
structure MetricDelta where
  metric : String
  baseline : ℚ
  comparison : ℚ
  change : ℚ
  improvement : Bool
  changePercent : Int
  formattedBaseline : String
  formattedComparison : String
  formattedChange : String
  impact : String
  deriving DecidableEq, Repr

/-- Lines 203-212 of `src/server.js`: the score `changeObj` for one
category, given the two numeric scores. -/
def mkScoreDelta (category : String) (score1 score2 : ℚ) : ScoreDelta :=
  let change := score2 - score1
  { category := getCategoryDisplayName category
    baseline := score1
    comparison := score2
    change := change
    improvement := change > 0
    changePercent := if score1 > 0 then jsRound (change / score1 * 100) else 0
    impact := getScoreImpact |change| }

/-- Lines 228-241 of `src/server.js`: the metric `changeObj` for one
metric, given the two numeric values. -/
def mkMetricDelta (metric : String) (value1 value2 : ℚ) : MetricDelta :=
  let change := value2 - value1
  let isImprovement := change < 0
  { metric := getMetricDisplayName metric
    baseline := value1
    comparison := value2
    change := change
    improvement := isImprovement
    changePercent := if value1 > 0 then jsRound (|change| / value1 * 100) else 0
    formattedBaseline := formatMetricValue metric value1
    formattedComparison := formatMetricValue metric value2
    formattedChange := formatMetricChange metric change
    impact := getMetricImpact metric |change| value1 }

/-- The loop of lines 200-222: for every entry of the baseline `scores`
object whose value is a number and whose key maps to a number in the
candidate's `scores`, build the score delta; other entries are skipped. -/
def scoreDeltas (s1 s2 : List (String × JsVal)) : List (String × ScoreDelta) :=
  s1.filterMap fun p =>
    match p.2, jsLookup s2 p.1 with
    | .num q1, .num q2 => some (p.1, mkScoreDelta p.1 q1 q2)
    | _, _ => none

/-- The loop of lines 225-251, metric counterpart of `scoreDeltas`. -/
def metricDeltas (m1 m2 : List (String × JsVal)) : List (String × MetricDelta) :=
  m1.filterMap fun p =>
    match p.2, jsLookup m2 p.1 with
    | .num q1, .num q2 => some (p.1, mkMetricDelta p.1 q1 q2)
    | _, _ => none

/-- The `urlComparison` object of lines 185-251. -/
structure UrlComparison where
  url : String
  scoreChanges : List (String × ScoreDelta)
  metricChanges : List (String × MetricDelta)
  improvementsScores : List ScoreDelta
  improvementsMetrics : List MetricDelta
  regressionsScores : List ScoreDelta
  regressionsMetrics : List MetricDelta
  deriving DecidableEq, Repr

/-- Lines 185-251: build the per-URL comparison from the four maps.  The
source pushes each delta into `improvements`/`regressions` while it
iterates (scores: `change > 0` / `change < 0`; metrics: `isImprovement` /
`else if (change !== 0)`), which yields exactly the in-order filters
below. -/
def buildUrlComparison (url : String) (s1 s2 m1 m2 : List (String × JsVal)) :
    UrlComparison :=
  let sds := (scoreDeltas s1 s2).map Prod.snd
  let mds := (metricDeltas m1 m2).map Prod.snd
  { url := url
    scoreChanges := scoreDeltas s1 s2
    metricChanges := metricDeltas m1 m2
    improvementsScores := sds.filter fun d => d.change > 0
    improvementsMetrics := mds.filter fun d => d.change < 0
    regressionsScores := sds.filter fun d => d.change < 0
    regressionsMetrics := mds.filter fun d => !(d.change < 0) && d.change != 0 }

/-- Line 183 and lines 185-251: one loop iteration when the candidate
entry exists.  `none` models `continue` (skipped pair). -/
def pairOne (r1 r2 : Report) : Option UrlComparison :=
  if errTruthy r1.error || errTruthy r2.error || r1.scores.isNone || r2.scores.isNone
      || r1.metrics.isNone || r2.metrics.isNone then
    none
  else
    some (buildUrlComparison r1.url (r1.scores.getD []) (r2.scores.getD [])
      (r1.metrics.getD []) (r2.metrics.getD []))

/-- The loop of lines 179-265, one slot per baseline index: `some none`
for a skipped pair, `some (some u)` for a compared pair.  When the
candidate list is exhausted, `branch2Results[i]` is `undefined`: if
`result1.error` is truthy the `||` short-circuits and the pair is skipped,
otherwise evaluating `result2.error` throws a `TypeError`, modelled by
`Except.error ()`. -/
def comparePairs : List Report → List Report → Except Unit (List (Option UrlComparison))
  | [], _ => .ok []
  | r1 :: t1, [] =>
      if errTruthy r1.error then (comparePairs t1 []).map (none :: ·)
      else .error ()
  | r1 :: t1, r2 :: t2 => (comparePairs t1 t2).map (pairOne r1 r2 :: ·)

/-- The `summary` object of lines 268-276. -/
structure Summary where
  totalUrls : Nat
  urlsWithImprovements : Nat
  urlsWithRegressions : Nat
  totalImprovements : Nat
  totalRegressions : Nat
  deriving DecidableEq, Repr

/-- The `comparison` object of lines 170-177 as returned on line 278. -/
structure Comparison where
  baseline : String
  comparison : String
  improvements : List UrlComparison
  regressions : List UrlComparison
  detailed : List UrlComparison
  summary : Summary
  deriving DecidableEq, Repr

/-- Whether a per-URL comparison has at least one improvement, line 256. -/
def hasImps (u : UrlComparison) : Bool :=
  u.improvementsScores.length > 0 || u.improvementsMetrics.length > 0

/-- Whether a per-URL comparison has at least one regression, line 257. -/
def hasRegs (u : UrlComparison) : Bool :=
  u.regressionsScores.length > 0 || u.regressionsMetrics.length > 0

/-- Lines 169-279 of `src/server.js`: the whole comparison engine.  The
result is `Except.error ()` exactly when the loop dereferences an absent
candidate entry (see `comparePairs`). -/
def compareBranches (branch1Results branch2Results : List Report)
    (branch1Name branch2Name : String) : Except Unit Comparison :=
  match comparePairs branch1Results branch2Results with
  | .error e => .error e
  | .ok opts =>
    let detailed := opts.filterMap id
    let improvements := detailed.filter hasImps
    let regressions := detailed.filter hasRegs
    .ok
      { baseline := branch1Name
        comparison := branch2Name
        improvements := improvements
        regressions := regressions
        detailed := detailed
        summary :=
          { totalUrls := branch1Results.length
            urlsWithImprovements := improvements.length
            urlsWithRegressions := regressions.length
            totalImprovements :=
              detailed.foldl (fun sum u =>
                sum + u.improvementsScores.length + u.improvementsMetrics.length) 0
            totalRegressions :=
              detailed.foldl (fun sum u =>
                sum + u.regressionsScores.length + u.regressionsMetrics.length) 0 } }

/-! ### Concrete sample data

Two URL pairs: the first fully scored on both branches (one improving and
one regressing score, one regressing time metric and one improving layout
shift), the second with an error report on the candidate side.  These are
used as concrete inputs by the witness theorems. -/

def rAb : Report :=
  { url := "https://a.example"
    scores := some [("performance", .num 80), ("seo", .num 100)]
    metrics := some [("largest-contentful-paint", .num 2000), ("cumulative-layout-shift", .num (1/5))] }

def rAc : Report :=
  { url := "https://a.example"
    scores := some [("performance", .num 95), ("seo", .num 90)]
    metrics := some [("largest-contentful-paint", .num 3500), ("cumulative-layout-shift", .num (2/25))] }

def rBb : Report :=
  { url := "https://b.example", scores := some [("performance", .num 50)], metrics := some [] }

def rBc : Report :=
  { url := "https://b.example", error := some "Lighthouse fehlgeschlagen mit Code 1: " }

def dPerf : ScoreDelta :=
  { category := "Performance", baseline := 80, comparison := 95, change := 15,
    improvement := true, changePercent := 19, impact := "Mittel" }

def dSeo : ScoreDelta :=
  { category := "SEO", baseline := 100, comparison := 90, change := -10,
    improvement := false, changePercent := -10, impact := "Mittel" }

def dLcp : MetricDelta :=
  { metric := "Largest Contentful Paint (LCP)", baseline := 2000, comparison := 3500,
    change := 1500, improvement := false, changePercent := 75,
    formattedBaseline := "2000ms", formattedComparison := "3500ms",
    formattedChange := "+1500ms", impact := "Hoch" }

def dCls : MetricDelta :=
  { metric := "Cumulative Layout Shift (CLS)", baseline := 1/5, comparison := 2/25,
    change := -(3/25), improvement := true, changePercent := 60,
    formattedBaseline := "0.200", formattedComparison := "0.080",
    formattedChange := "-0.120", impact := "Mittel" }

def sampleUrlA : UrlComparison :=
  { url := "https://a.example"
    scoreChanges := [("performance", dPerf), ("seo", dSeo)]
    metricChanges := [("largest-contentful-paint", dLcp), ("cumulative-layout-shift", dCls)]
    improvementsScores := [dPerf]
    improvementsMetrics := [dCls]
    regressionsScores := [dSeo]
    regressionsMetrics := [dLcp] }

def sampleBase : List Report := [rAb, rBb]
def sampleCand : List Report := [rAc, rBc]

def sampleComp : Comparison :=
  { baseline := "main"
    comparison := "feature"
    improvements := [sampleUrlA]
    regressions := [sampleUrlA]
    detailed := [sampleUrlA]
    summary :=
      { totalUrls := 2, urlsWithImprovements := 1, urlsWithRegressions := 1,
        totalImprovements := 2, totalRegressions := 2 } }


/-- Number of characters after the last `.` of a rendered string (all of
them when there is no dot). -/
def decimalsAfterPoint (s : String) : Nat :=
  (s.data.reverse.takeWhile (fun c => c != '.')).length

/-! ### Helper lemmas about the engine -/

/-- Folding `fun s u => s + f u + g u` over a list, as the two `reduce`
calls of lines 272-275 do, sums `f + g` over the list. -/
theorem foldl_add_two {α : Type} (f g : α → Nat) :
    ∀ (l : List α) (n : Nat),
      l.foldl (fun s u => s + f u + g u) n = n + (l.map fun u => f u + g u).sum := by
  intro l
  induction l with
  | nil => intro n; simp
  | cons a t ih =>
      intro n
      simp only [List.foldl_cons, List.map_cons, List.sum_cons, ih]
      omega

/-- Destructuring a successful run of `compareBranches` into its
`comparePairs` skeleton. -/
theorem compareBranches_ok_elim {rs1 rs2 : List Report} {n1 n2 : String}
    {c : Comparison} (h : compareBranches rs1 rs2 n1 n2 = .ok c) :
    ∃ opts, comparePairs rs1 rs2 = .ok opts ∧
      c = { baseline := n1
            comparison := n2
            improvements := (opts.filterMap id).filter hasImps
            regressions := (opts.filterMap id).filter hasRegs
            detailed := opts.filterMap id
            summary :=
              { totalUrls := rs1.length
                urlsWithImprovements := ((opts.filterMap id).filter hasImps).length
                urlsWithRegressions := ((opts.filterMap id).filter hasRegs).length
                totalImprovements :=
                  (opts.filterMap id).foldl (fun sum u =>
                    sum + u.improvementsScores.length + u.improvementsMetrics.length) 0
                totalRegressions :=
                  (opts.filterMap id).foldl (fun sum u =>
                    sum + u.regressionsScores.length + u.regressionsMetrics.length) 0 } } := by
  unfold compareBranches at h
  split at h
  · exact absurd h (by simp)
  · rename_i opts heq
    simp only [Except.ok.injEq] at h
    exact ⟨opts, heq, h.symm⟩

/-- A successful `comparePairs` run yields one slot per baseline entry. -/
theorem comparePairs_length :
    ∀ (rs1 rs2 : List Report) (opts : List (Option UrlComparison)),
      comparePairs rs1 rs2 = .ok opts → opts.length = rs1.length := by
  intro rs1
  induction rs1 with
  | nil =>
      intro rs2 opts h
      cases rs2 <;> simp only [comparePairs, Except.ok.injEq] at h <;> simp [← h]
  | cons r1 t1 ih =>
      intro rs2 opts h
      cases rs2 with
      | nil =>
          simp only [comparePairs] at h
          split at h
          · cases hrec : comparePairs t1 [] with
            | error e => rw [hrec] at h; exact absurd h (by simp [Except.map])
            | ok l =>
                rw [hrec] at h
                simp only [Except.map, Except.ok.injEq] at h
                simp [← h, ih [] l hrec]
          · exact absurd h (by simp)
      | cons r2 t2 =>
          simp only [comparePairs] at h
          cases hrec : comparePairs t1 t2 with
          | error e => rw [hrec] at h; exact absurd h (by simp [Except.map])
          | ok l =>
              rw [hrec] at h
              simp only [Except.map, Except.ok.injEq] at h
              simp [← h, ih t2 l hrec]

/-- When the candidate list is at least as long as the baseline list the
engine never throws. -/
theorem comparePairs_ok_of_le :
    ∀ (rs1 rs2 : List Report), rs1.length ≤ rs2.length →
      ∃ opts, comparePairs rs1 rs2 = .ok opts := by
  intro rs1
  induction rs1 with
  | nil => intro rs2 _; exact ⟨[], by cases rs2 <;> rfl⟩
  | cons r1 t1 ih =>
      intro rs2 hle
      cases rs2 with
      | nil => simp at hle
      | cons r2 t2 =>
          obtain ⟨l, hl⟩ := ih t2 (by simpa using hle)
          exact ⟨pairOne r1 r2 :: l, by simp [comparePairs, hl, Except.map]⟩

/-- Candidate entries beyond the baseline length are never read. -/
theorem comparePairs_take :
    ∀ (rs1 rs2 : List Report),
      comparePairs rs1 rs2 = comparePairs rs1 (rs2.take rs1.length) := by
  intro rs1
  induction rs1 with
  | nil => intro rs2; cases rs2 <;> rfl
  | cons r1 t1 ih =>
      intro rs2
      cases rs2 with
      | nil => rfl
      | cons r2 t2 => simp [comparePairs, List.take_succ_cons, ← ih t2]

/-- Every compared slot of a successful run comes from `pairOne` on some
baseline/candidate pair. -/
theorem comparePairs_mem_some :
    ∀ (rs1 rs2 : List Report) (opts : List (Option UrlComparison)) (u : UrlComparison),
      comparePairs rs1 rs2 = .ok opts → some u ∈ opts →
      ∃ r1 r2, r1 ∈ rs1 ∧ r2 ∈ rs2 ∧ pairOne r1 r2 = some u := by
  intro rs1
  induction rs1 with
  | nil =>
      intro rs2 opts u h hm
      cases rs2 <;> simp only [comparePairs, Except.ok.injEq] at h <;>
        subst h <;> simp at hm
  | cons r1 t1 ih =>
      intro rs2 opts u h hm
      cases rs2 with
      | nil =>
          simp only [comparePairs] at h
          split at h
          · cases hrec : comparePairs t1 [] with
            | error e => rw [hrec] at h; exact absurd h (by simp [Except.map])
            | ok l =>
                rw [hrec] at h
                simp only [Except.map, Except.ok.injEq] at h
                subst h
                rcases List.mem_cons.mp hm with h0 | h0
                · exact absurd h0 (by simp)
                · obtain ⟨a, b, ha, hb, hab⟩ := ih [] l u hrec h0
                  simp at hb
          · exact absurd h (by simp)
      | cons r2 t2 =>
          simp only [comparePairs] at h
          cases hrec : comparePairs t1 t2 with
          | error e => rw [hrec] at h; exact absurd h (by simp [Except.map])
          | ok l =>
              rw [hrec] at h
              simp only [Except.map, Except.ok.injEq] at h
              subst h
              rcases List.mem_cons.mp hm with h0 | h0
              · exact ⟨r1, r2, by simp, by simp, h0.symm⟩
              · obtain ⟨a, b, ha, hb, hab⟩ := ih t2 l u hrec h0
                exact ⟨a, b, by simp [ha], by simp [hb], hab⟩

/-- A produced `pairOne` result is the build on the four stored maps, and
the guard of line 183 was false. -/
theorem pairOne_some_elim {r1 r2 : Report} {u : UrlComparison}
    (h : pairOne r1 r2 = some u) :
    u = buildUrlComparison r1.url (r1.scores.getD []) (r2.scores.getD [])
          (r1.metrics.getD []) (r2.metrics.getD []) := by
  unfold pairOne at h
  split at h
  · exact absurd h (by simp)
  · exact (Option.some.injEq _ _ ▸ h).symm

/-- Every entry of `scoreDeltas` is an `mkScoreDelta` of two numbers. -/
theorem mem_scoreDeltas {s1 s2 : List (String × JsVal)} {p : String × ScoreDelta}
    (h : p ∈ scoreDeltas s1 s2) :
    ∃ q1 q2, p.2 = mkScoreDelta p.1 q1 q2 := by
  obtain ⟨a, _, ha⟩ := List.mem_filterMap.mp h
  revert ha
  rcases a with ⟨k, v⟩
  cases v with
  | other => simp [jsLookup]
  | num q1 =>
      cases hv : jsLookup s2 k with
      | other => simp [hv]
      | num q2 =>
          simp only [hv, Option.some.injEq]
          intro he
          exact ⟨q1, q2, by rw [← he]⟩

/-- Every entry of `metricDeltas` is an `mkMetricDelta` of two numbers. -/
theorem mem_metricDeltas {m1 m2 : List (String × JsVal)} {p : String × MetricDelta}
    (h : p ∈ metricDeltas m1 m2) :
    ∃ q1 q2, p.2 = mkMetricDelta p.1 q1 q2 := by
  obtain ⟨a, _, ha⟩ := List.mem_filterMap.mp h
  revert ha
  rcases a with ⟨k, v⟩
  cases v with
  | other => simp [jsLookup]
  | num q1 =>
      cases hv : jsLookup m2 k with
      | other => simp [hv]
      | num q2 =>
          simp only [hv, Option.some.injEq]
          intro he
          exact ⟨q1, q2, by rw [← he]⟩

/-- The `else if (change !== 0)` branch of line 247 catches exactly the
strictly positive changes. -/
theorem not_lt_and_ne_iff (q : ℚ) : (¬ q < 0 ∧ q ≠ 0) ↔ 0 < q := by
  constructor
  · rintro ⟨h1, h2⟩
    exact lt_of_le_of_ne (le_of_not_lt h1) (Ne.symm h2)
  · intro h
    exact ⟨not_lt_of_gt h, ne_of_gt h⟩

/-! ### Claim theorems -/

/-- C6: for every compared score category, the impact level depends only
on the absolute change, with inclusive thresholds: `Hoch` (High) iff
`|change| ≥ 20`, `Mittel` (Medium) iff `10 ≤ |change| < 20`, `Niedrig`
(Low) iff `5 ≤ |change| < 10`, and `Minimal` otherwise; in particular a
change of exactly 20 classifies as High and 19 as Medium. -/
theorem score_impact_thresholds (change : ℚ) :
    (getScoreImpact |change| = "Hoch" ↔ 20 ≤ |change|) ∧
    (getScoreImpact |change| = "Mittel" ↔ 10 ≤ |change| ∧ |change| < 20) ∧
    (getScoreImpact |change| = "Niedrig" ↔ 5 ≤ |change| ∧ |change| < 10) ∧
    (getScoreImpact |change| = "Minimal" ↔ |change| < 5) ∧
    getScoreImpact 20 = "Hoch" ∧ getScoreImpact 19 = "Mittel" := by
  refine ⟨?_, ?_, ?_, ?_, by norm_num [getScoreImpact], by norm_num [getScoreImpact]⟩ <;>
    · unfold getScoreImpact
      split_ifs with h1 h2 h3 <;> simp <;>
        first
          | linarith
          | (intro h; linarith)
          | exact ⟨by linarith, by linarith⟩

/-- C7: for the `cumulative-layout-shift` metric the impact uses inclusive
absolute-change thresholds 0.25 / 0.10 / 0.05; for every other metric it
uses the percentage `|change| / baseline * 100`, taken as 0 when the
baseline is not positive, with inclusive thresholds 50 / 25 / 10.
(`Hoch`/`Mittel`/`Niedrig`/`Minimal` are the source's German strings for
High/Medium/Low/Minimal.) -/
theorem metric_impact_thresholds (change baselineValue : ℚ) :
    ((getMetricImpact "cumulative-layout-shift" |change| baselineValue = "Hoch" ↔
        0.25 ≤ |change|) ∧
      (getMetricImpact "cumulative-layout-shift" |change| baselineValue = "Mittel" ↔
        0.1 ≤ |change| ∧ |change| < 0.25) ∧
      (getMetricImpact "cumulative-layout-shift" |change| baselineValue = "Niedrig" ↔
        0.05 ≤ |change| ∧ |change| < 0.1) ∧
      (getMetricImpact "cumulative-layout-shift" |change| baselineValue = "Minimal" ↔
        |change| < 0.05)) ∧
    ∀ metric, metric ≠ "cumulative-layout-shift" →
      ((getMetricImpact metric |change| baselineValue = "Hoch" ↔
          50 ≤ (if 0 < baselineValue then |change| / baselineValue * 100 else 0)) ∧
        (getMetricImpact metric |change| baselineValue = "Mittel" ↔
          25 ≤ (if 0 < baselineValue then |change| / baselineValue * 100 else 0) ∧
            (if 0 < baselineValue then |change| / baselineValue * 100 else 0) < 50) ∧
        (getMetricImpact metric |change| baselineValue = "Niedrig" ↔
          10 ≤ (if 0 < baselineValue then |change| / baselineValue * 100 else 0) ∧
            (if 0 < baselineValue then |change| / baselineValue * 100 else 0) < 25) ∧
        (getMetricImpact metric |change| baselineValue = "Minimal" ↔
          (if 0 < baselineValue then |change| / baselineValue * 100 else 0) < 10)) := by
  constructor
  · refine ⟨?_, ?_, ?_, ?_⟩ <;>
      · simp only [getMetricImpact, if_pos rfl]
        split_ifs with h1 h2 h3 <;> simp <;>
          first
            | linarith
            | (intro h; linarith)
            | exact ⟨by linarith, by linarith⟩
  · intro metric hm
    refine ⟨?_, ?_, ?_, ?_⟩ <;>
      · simp only [getMetricImpact, if_neg hm]
        split_ifs with h1 h2 h3 h4 <;> simp <;>
          first
            | linarith
            | (intro h; linarith)
            | exact ⟨by linarith, by linarith⟩

/-- Witness for `metric_impact_thresholds`: the hypothesis
`metric ≠ "cumulative-layout-shift"` holds for `"largest-contentful-paint"`,
and with baseline 2000 and change 1500 the percentage branch applies (the
spec's own worked example, 75% ≥ 50). -/
theorem metric_impact_thresholds_witness :
    ("largest-contentful-paint" : String) ≠ "cumulative-layout-shift" ∧
      (getMetricImpact "largest-contentful-paint" |(1500 : ℚ)| 2000 = "Hoch" ↔
        50 ≤ (if 0 < (2000 : ℚ) then |(1500 : ℚ)| / 2000 * 100 else 0)) :=
  ⟨by decide, ((metric_impact_thresholds 1500 2000).2 "largest-contentful-paint"
      (by decide)).1⟩

theorem fmtLcpBase : formatMetricValue "largest-contentful-paint" 2000 = "2000ms" := by
  have h : jsRound (2000 : ℚ) = 2000 := by norm_num [jsRound]
  simp [formatMetricValue, h]
  decide

theorem fmtLcpComp : formatMetricValue "largest-contentful-paint" 3500 = "3500ms" := by
  have h : jsRound (3500 : ℚ) = 3500 := by norm_num [jsRound]
  simp [formatMetricValue, h]
  decide

theorem fmtLcpChange : formatMetricChange "largest-contentful-paint" 1500 = "+1500ms" := by
  have h : jsRound (1500 : ℚ) = 1500 := by norm_num [jsRound]
  have hpos : (0 : ℚ) < 1500 := by norm_num
  simp [formatMetricChange, h, hpos]
  decide

theorem fmtClsBase : formatMetricValue "cumulative-layout-shift" (1/5) = "0.200" := by
  have h : (⌊|(1/5 : ℚ)| * 1000 + 1/2⌋ : Int) = 200 := by
    rw [abs_of_nonneg (by norm_num)]; norm_num
  have hneg : ¬ ((1/5 : ℚ) < 0) := by norm_num
  simp only [formatMetricValue, toFixed3, reduceIte, if_neg hneg]
  rw [h]
  decide

theorem fmtClsComp : formatMetricValue "cumulative-layout-shift" (2/25) = "0.080" := by
  have h : (⌊|(2/25 : ℚ)| * 1000 + 1/2⌋ : Int) = 80 := by
    rw [abs_of_nonneg (by norm_num)]; norm_num
  have hneg : ¬ ((2/25 : ℚ) < 0) := by norm_num
  simp only [formatMetricValue, toFixed3, reduceIte, if_neg hneg]
  rw [h]
  decide

theorem fmtClsChange : formatMetricChange "cumulative-layout-shift" (-(3/25)) = "-0.120" := by
  have h : (⌊|(-(3/25) : ℚ)| * 1000 + 1/2⌋ : Int) = 120 := by
    rw [abs_of_nonpos (by norm_num)]; norm_num
  have hlt : (-(3/25) : ℚ) < 0 := by norm_num
  have hnpos : ¬ ((0 : ℚ) < -(3/25)) := by norm_num
  simp only [formatMetricChange, toFixed3, reduceIte, if_neg hnpos, if_pos hlt]
  rw [h]
  decide

theorem pairA : pairOne rAb rAc = some sampleUrlA := by
  have b1 : (("performance" : String) == "performance") = true := rfl
  have b2 : (("seo" : String) == "performance") = false := rfl
  have b3 : (("seo" : String) == "seo") = true := rfl
  have b4 : (("largest-contentful-paint" : String) == "largest-contentful-paint") = true := rfl
  have b5 : (("cumulative-layout-shift" : String) == "largest-contentful-paint") = false := rfl
  have b6 : (("cumulative-layout-shift" : String) == "cumulative-layout-shift") = true := rfl
  have bn : ((1500 : ℚ) != 0) = true := bne_iff_ne.mpr (by norm_num)
  norm_num +decide [pairOne, errTruthy, rAb, rAc, buildUrlComparison, scoreDeltas,
    metricDeltas, jsLookup, List.lookup, mkScoreDelta, mkMetricDelta,
    getCategoryDisplayName, getMetricDisplayName, getScoreImpact, getMetricImpact,
    jsRound, List.filterMap_cons, List.filter, sampleUrlA, dPerf, dSeo, dLcp, dCls,
    fmtLcpBase, fmtLcpComp, fmtLcpChange, fmtClsBase, fmtClsComp, fmtClsChange,
    b1, b2, b3, b4, b5, b6, bn, Int.floor_eq_iff, abs_of_nonneg, abs_of_nonpos]

theorem pairB : pairOne rBb rBc = none := by decide

theorem sampleCompare : compareBranches sampleBase sampleCand "main" "feature" = .ok sampleComp := by
  simp [compareBranches, comparePairs, sampleBase, sampleCand, pairA, pairB, Except.map,
    hasImps, hasRegs, sampleComp, sampleUrlA, List.filter]

/-- C5: in every result of `compareBranches`, `summary.totalUrls` is the
length of the baseline input sequence (skipped pairs included),
`urlsWithImprovements` / `urlsWithRegressions` are the lengths of the
top-level `improvements` / `regressions` lists, and `totalImprovements`
(resp. `totalRegressions`) is the sum over the detailed per-URL list of
`improvements.scores.length + improvements.metrics.length` (resp. the
regression counts). -/
theorem summary_aggregation (rs1 rs2 : List Report) (n1 n2 : String)
    (c : Comparison) (h : compareBranches rs1 rs2 n1 n2 = .ok c) :
    c.summary.totalUrls = rs1.length ∧
    c.summary.urlsWithImprovements = c.improvements.length ∧
    c.summary.urlsWithRegressions = c.regressions.length ∧
    c.summary.totalImprovements =
      (c.detailed.map fun u =>
        u.improvementsScores.length + u.improvementsMetrics.length).sum ∧
    c.summary.totalRegressions =
      (c.detailed.map fun u =>
        u.regressionsScores.length + u.regressionsMetrics.length).sum := by
  obtain ⟨opts, hcp, rfl⟩ := compareBranches_ok_elim h
  refine ⟨rfl, rfl, rfl, ?_, ?_⟩ <;>
    simp [foldl_add_two]

/-- Witness for `summary_aggregation` on the sample comparison: two
baseline URLs, one skipped pair, one URL with 2 improvements and 2
regressions. -/
theorem summary_aggregation_witness :
    compareBranches sampleBase sampleCand "main" "feature" = .ok sampleComp ∧
      (sampleComp.summary.totalUrls = sampleBase.length ∧
        sampleComp.summary.urlsWithImprovements = sampleComp.improvements.length ∧
        sampleComp.summary.urlsWithRegressions = sampleComp.regressions.length ∧
        sampleComp.summary.totalImprovements =
          (sampleComp.detailed.map fun u =>
            u.improvementsScores.length + u.improvementsMetrics.length).sum ∧
        sampleComp.summary.totalRegressions =
          (sampleComp.detailed.map fun u =>
            u.regressionsScores.length + u.regressionsMetrics.length).sum) :=
  ⟨sampleCompare, summary_aggregation sampleBase sampleCand "main" "feature"
    sampleComp sampleCompare⟩

/-- C1: in every produced per-URL comparison, every score delta records
`change = comparison - baseline` and `improvement ⇔ change > 0`, and sits
in `improvements.scores` iff `change > 0` and in `regressions.scores` iff
`change < 0`; every metric delta records `change = comparison - baseline`
and `improvement ⇔ change < 0`, and sits in `improvements.metrics` iff
`change < 0` and in `regressions.metrics` iff `change > 0`.  A delta with
`change = 0` is in neither bucket while still being a member of
`scoreChanges` / `metricChanges`. -/
theorem delta_sign_conventions (rs1 rs2 : List Report) (n1 n2 : String)
    (c : Comparison) (h : compareBranches rs1 rs2 n1 n2 = .ok c) :
    ∀ u ∈ c.detailed,
      (∀ p ∈ u.scoreChanges,
        (p.2).change = (p.2).comparison - (p.2).baseline ∧
        (p.2).improvement = decide (0 < (p.2).change)) ∧
      (∀ d : ScoreDelta, d ∈ u.improvementsScores ↔
        d ∈ u.scoreChanges.map Prod.snd ∧ 0 < d.change) ∧
      (∀ d : ScoreDelta, d ∈ u.regressionsScores ↔
        d ∈ u.scoreChanges.map Prod.snd ∧ d.change < 0) ∧
      (∀ p ∈ u.metricChanges,
        (p.2).change = (p.2).comparison - (p.2).baseline ∧
        (p.2).improvement = decide ((p.2).change < 0)) ∧
      (∀ d : MetricDelta, d ∈ u.improvementsMetrics ↔
        d ∈ u.metricChanges.map Prod.snd ∧ d.change < 0) ∧
      (∀ d : MetricDelta, d ∈ u.regressionsMetrics ↔
        d ∈ u.metricChanges.map Prod.snd ∧ 0 < d.change) := by
  intro u hu
  obtain ⟨opts, hcp, rfl⟩ := compareBranches_ok_elim h
  have hmem : some u ∈ opts := by
    obtain ⟨a, ha, haeq⟩ := List.mem_filterMap.mp hu
    rw [show id a = a from rfl] at haeq
    rwa [haeq] at ha
  obtain ⟨r1, r2, -, -, hp⟩ := comparePairs_mem_some rs1 rs2 opts u hcp hmem
  have hb := pairOne_some_elim hp
  subst hb
  refine ⟨?_, ?_, ?_, ?_, ?_, ?_⟩
  · intro p hp'
    obtain ⟨q1, q2, he⟩ :=
      mem_scoreDeltas (show p ∈ scoreDeltas _ _ from hp')
    rw [he]
    exact ⟨by simp [mkScoreDelta], by simp [mkScoreDelta]⟩
  · intro d
    simp [buildUrlComparison, List.mem_filter]
  · intro d
    simp [buildUrlComparison, List.mem_filter]
  · intro p hp'
    obtain ⟨q1, q2, he⟩ :=
      mem_metricDeltas (show p ∈ metricDeltas _ _ from hp')
    rw [he]
    exact ⟨by simp [mkMetricDelta], by simp [mkMetricDelta]⟩
  · intro d
    simp [buildUrlComparison, List.mem_filter]
  · intro d
    simp only [buildUrlComparison, List.mem_filter, Bool.and_eq_true,
      Bool.not_eq_true', decide_eq_false_iff_not, bne_iff_ne, ne_eq]
    rw [not_lt_and_ne_iff d.change]

/-- Witness for `delta_sign_conventions` on the sample comparison's
single detailed entry. -/
theorem delta_sign_conventions_witness :
    compareBranches sampleBase sampleCand "main" "feature" = .ok sampleComp ∧
      sampleUrlA ∈ sampleComp.detailed ∧
      ((∀ p ∈ sampleUrlA.scoreChanges,
          (p.2).change = (p.2).comparison - (p.2).baseline ∧
          (p.2).improvement = decide (0 < (p.2).change)) ∧
        (∀ d : ScoreDelta, d ∈ sampleUrlA.improvementsScores ↔
          d ∈ sampleUrlA.scoreChanges.map Prod.snd ∧ 0 < d.change) ∧
        (∀ d : ScoreDelta, d ∈ sampleUrlA.regressionsScores ↔
          d ∈ sampleUrlA.scoreChanges.map Prod.snd ∧ d.change < 0) ∧
        (∀ p ∈ sampleUrlA.metricChanges,
          (p.2).change = (p.2).comparison - (p.2).baseline ∧
          (p.2).improvement = decide ((p.2).change < 0)) ∧
        (∀ d : MetricDelta, d ∈ sampleUrlA.improvementsMetrics ↔
          d ∈ sampleUrlA.metricChanges.map Prod.snd ∧ d.change < 0) ∧
        (∀ d : MetricDelta, d ∈ sampleUrlA.regressionsMetrics ↔
          d ∈ sampleUrlA.metricChanges.map Prod.snd ∧ 0 < d.change)) :=
  ⟨sampleCompare, by simp [sampleComp],
    delta_sign_conventions sampleBase sampleCand "main" "feature" sampleComp
      sampleCompare sampleUrlA (by simp [sampleComp])⟩

/-- C8: every produced score delta has
`changePercent = round(change / baseline * 100)` (signed, hence possibly
negative) when the baseline is positive and `0` otherwise; every metric
delta has `changePercent = round(|change| / baseline * 100)` (always
non-negative) when the baseline is positive and `0` otherwise; a baseline
of `0` always yields `changePercent = 0` and division is never performed
on it. -/
theorem change_percent_rule (rs1 rs2 : List Report) (n1 n2 : String)
    (c : Comparison) (h : compareBranches rs1 rs2 n1 n2 = .ok c) :
    (∀ u ∈ c.detailed,
      (∀ p ∈ u.scoreChanges,
        (p.2).changePercent =
          (if 0 < (p.2).baseline then jsRound ((p.2).change / (p.2).baseline * 100)
            else 0) ∧
        ((p.2).baseline = 0 → (p.2).changePercent = 0)) ∧
      (∀ p ∈ u.metricChanges,
        (p.2).changePercent =
          (if 0 < (p.2).baseline then jsRound (|(p.2).change| / (p.2).baseline * 100)
            else 0) ∧
        0 ≤ (p.2).changePercent ∧
        ((p.2).baseline = 0 → (p.2).changePercent = 0))) ∧
    (mkScoreDelta "performance" 100 50).changePercent = -50 := by
  constructor
  · intro u hu
    obtain ⟨opts, hcp, rfl⟩ := compareBranches_ok_elim h
    have hmem : some u ∈ opts := by
      obtain ⟨a, ha, haeq⟩ := List.mem_filterMap.mp hu
      rw [show id a = a from rfl] at haeq
      rwa [haeq] at ha
    obtain ⟨r1, r2, -, -, hp⟩ := comparePairs_mem_some rs1 rs2 opts u hcp hmem
    have hb := pairOne_some_elim hp
    subst hb
    constructor
    · intro p hp'
      obtain ⟨q1, q2, he⟩ :=
        mem_scoreDeltas (show p ∈ scoreDeltas _ _ from hp')
      rw [he]
      refine ⟨by simp [mkScoreDelta], ?_⟩
      intro h0
      simp only [mkScoreDelta] at h0 ⊢
      simp [h0]
    · intro p hp'
      obtain ⟨q1, q2, he⟩ :=
        mem_metricDeltas (show p ∈ metricDeltas _ _ from hp')
      rw [he]
      refine ⟨by simp [mkMetricDelta], ?_, ?_⟩
      · simp only [mkMetricDelta]
        split_ifs with hq
        · rw [jsRound]
          exact Int.le_floor.mpr (by positivity)
        · exact le_refl 0
      · intro h0
        simp only [mkMetricDelta] at h0 ⊢
        simp [h0]
  · have : ((50 : ℚ) - 100) / 100 * 100 = -50 := by norm_num
    simp only [mkScoreDelta, this]
    rw [if_pos (by norm_num), jsRound]
    norm_num

/-- Witness for `change_percent_rule` on the sample comparison. -/
theorem change_percent_rule_witness :
    compareBranches sampleBase sampleCand "main" "feature" = .ok sampleComp ∧
      ((∀ u ∈ sampleComp.detailed,
        (∀ p ∈ u.scoreChanges,
          (p.2).changePercent =
            (if 0 < (p.2).baseline then jsRound ((p.2).change / (p.2).baseline * 100)
              else 0) ∧
          ((p.2).baseline = 0 → (p.2).changePercent = 0)) ∧
        (∀ p ∈ u.metricChanges,
          (p.2).changePercent =
            (if 0 < (p.2).baseline then jsRound (|(p.2).change| / (p.2).baseline * 100)
              else 0) ∧
          0 ≤ (p.2).changePercent ∧
          ((p.2).baseline = 0 → (p.2).changePercent = 0))) ∧
      (mkScoreDelta "performance" 100 50).changePercent = -50) :=
  ⟨sampleCompare, change_percent_rule sampleBase sampleCand "main" "feature"
    sampleComp sampleCompare⟩

/-- Under the data-model invariant, the guard of line 183 fires whenever
either report carries an error or lacks `scores` or `metrics`. -/
theorem pairOne_none_of {r1 r2 : Report} (hwf1 : WFReport r1) (hwf2 : WFReport r2)
    (hskip : r1.error.isSome ∨ r1.scores = none ∨ r1.metrics = none ∨
      r2.error.isSome ∨ r2.scores = none ∨ r2.metrics = none) :
    pairOne r1 r2 = none := by
  unfold pairOne
  rw [if_pos ?cond]
  case cond =>
    simp only [Bool.or_eq_true, Option.isNone_iff_eq_none, or_assoc]
    rcases hskip with h | h | h | h | h | h
    · exact Or.inr (Or.inr (Or.inl (hwf1 h).1))
    · exact Or.inr (Or.inr (Or.inl h))
    · exact Or.inr (Or.inr (Or.inr (Or.inr (Or.inl h))))
    · exact Or.inr (Or.inr (Or.inr (Or.inl (hwf2 h).1)))
    · exact Or.inr (Or.inr (Or.inr (Or.inl h)))
    · exact Or.inr (Or.inr (Or.inr (Or.inr (Or.inr h))))

/-- In a successful run, the slot of a pair satisfying the skip condition
is `none`. -/
theorem comparePairs_skipped :
    ∀ (rs1 rs2 : List Report) (opts : List (Option UrlComparison)) (i : Nat)
      (r1 : Report),
      comparePairs rs1 rs2 = .ok opts →
      (∀ r ∈ rs1, WFReport r) → (∀ r ∈ rs2, WFReport r) →
      rs1.get? i = some r1 →
      (r1.error.isSome ∨ r1.scores = none ∨ r1.metrics = none ∨
        ∃ r2, rs2.get? i = some r2 ∧
          (r2.error.isSome ∨ r2.scores = none ∨ r2.metrics = none)) →
      opts.get? i = some none := by
  intro rs1
  induction rs1 with
  | nil => intro rs2 opts i r1 h hwf1 hwf2 hr1 hskip; simp at hr1
  | cons rh t1 ih =>
      intro rs2 opts i r1 h hwf1 hwf2 hr1 hskip
      cases rs2 with
      | nil =>
          simp only [comparePairs] at h
          split at h
          · cases hrec : comparePairs t1 [] with
            | error e => rw [hrec] at h; exact absurd h (by simp [Except.map])
            | ok l =>
                rw [hrec] at h
                simp only [Except.map, Except.ok.injEq] at h
                subst h
                cases i with
                | zero => rfl
                | succ j =>
                    simp only [List.get?_cons_succ] at hr1 ⊢
                    refine ih [] l j r1 hrec (fun r hr => hwf1 r (by simp [hr]))
                      (by simp) hr1 ?_
                    rcases hskip with hs | hs | hs | ⟨r2, hr2, -⟩
                    · exact Or.inl hs
                    · exact Or.inr (Or.inl hs)
                    · exact Or.inr (Or.inr (Or.inl hs))
                    · simp at hr2
          · exact absurd h (by simp)
      | cons r2h t2 =>
          simp only [comparePairs] at h
          cases hrec : comparePairs t1 t2 with
          | error e => rw [hrec] at h; exact absurd h (by simp [Except.map])
          | ok l =>
              rw [hrec] at h
              simp only [Except.map, Except.ok.injEq] at h
              subst h
              cases i with
              | zero =>
                  have heq : rh = r1 := by simpa using hr1
                  rw [← heq] at hskip
                  simp only [List.get?_cons_zero, Option.some.injEq]
                  refine pairOne_none_of (hwf1 rh (by simp)) (hwf2 r2h (by simp)) ?_
                  rcases hskip with hs | hs | hs | ⟨r2, hr2, hs⟩
                  · exact Or.inl hs
                  · exact Or.inr (Or.inl hs)
                  · exact Or.inr (Or.inr (Or.inl hs))
                  · have heq2 : r2h = r2 := by simpa using hr2
                    rw [← heq2] at hs
                    rcases hs with hs | hs | hs
                    · exact Or.inr (Or.inr (Or.inr (Or.inl hs)))
                    · exact Or.inr (Or.inr (Or.inr (Or.inr (Or.inl hs))))
                    · exact Or.inr (Or.inr (Or.inr (Or.inr (Or.inr hs))))
              | succ j =>
                  simp only [List.get?_cons_succ] at hr1 ⊢
                  refine ih t2 l j r1 hrec (fun r hr => hwf1 r (by simp [hr]))
                    (fun r hr => hwf2 r (by simp [hr])) hr1 ?_
                  rcases hskip with hs | hs | hs | ⟨r2, hr2, hs⟩
                  · exact Or.inl hs
                  · exact Or.inr (Or.inl hs)
                  · exact Or.inr (Or.inr (Or.inl hs))
                  · simp only [List.get?_cons_succ] at hr2
                    exact Or.inr (Or.inr (Or.inr ⟨r2, hr2, hs⟩))

/-- C4: when either side of a pair carries an error, or lacks `scores`,
or lacks `metrics`, no `UrlComparison` is produced at that index: the
slot is skipped, and since the detailed list collects exactly the
produced slots, the improvement/regression lists filter it, and the
totals sum over it, the pair contributes to none of them.  (Reports are
assumed to satisfy the spec's data-model invariant `WFReport`.) -/
theorem error_pair_excluded (rs1 rs2 : List Report) (n1 n2 : String)
    (c : Comparison) (i : Nat) (r1 : Report)
    (h : compareBranches rs1 rs2 n1 n2 = .ok c)
    (hwf1 : ∀ r ∈ rs1, WFReport r) (hwf2 : ∀ r ∈ rs2, WFReport r)
    (hr1 : rs1.get? i = some r1)
    (hskip : r1.error.isSome ∨ r1.scores = none ∨ r1.metrics = none ∨
      ∃ r2, rs2.get? i = some r2 ∧
        (r2.error.isSome ∨ r2.scores = none ∨ r2.metrics = none)) :
    ∃ opts, comparePairs rs1 rs2 = .ok opts ∧ opts.get? i = some none ∧
      c.detailed = opts.filterMap id ∧
      c.improvements = c.detailed.filter hasImps ∧
      c.regressions = c.detailed.filter hasRegs ∧
      c.summary.totalImprovements =
        (c.detailed.map fun u =>
          u.improvementsScores.length + u.improvementsMetrics.length).sum ∧
      c.summary.totalRegressions =
        (c.detailed.map fun u =>
          u.regressionsScores.length + u.regressionsMetrics.length).sum := by
  obtain ⟨opts, hcp, rfl⟩ := compareBranches_ok_elim h
  refine ⟨opts, hcp,
    comparePairs_skipped rs1 rs2 opts i r1 hcp hwf1 hwf2 hr1 hskip,
    rfl, rfl, rfl, ?_, ?_⟩ <;> simp [foldl_add_two]

/-- Witness for `error_pair_excluded`: in the sample comparison the pair
at index 1 has an error report on the candidate side and its slot is
skipped. -/
theorem error_pair_excluded_witness :
    compareBranches sampleBase sampleCand "main" "feature" = .ok sampleComp ∧
      (∀ r ∈ sampleBase, WFReport r) ∧ (∀ r ∈ sampleCand, WFReport r) ∧
      sampleBase.get? 1 = some rBb ∧
      (rBb.error.isSome ∨ rBb.scores = none ∨ rBb.metrics = none ∨
        ∃ r2, sampleCand.get? 1 = some r2 ∧
          (r2.error.isSome ∨ r2.scores = none ∨ r2.metrics = none)) ∧
      ∃ opts, comparePairs sampleBase sampleCand = .ok opts ∧
        opts.get? 1 = some none ∧
        sampleComp.detailed = opts.filterMap id ∧
        sampleComp.improvements = sampleComp.detailed.filter hasImps ∧
        sampleComp.regressions = sampleComp.detailed.filter hasRegs ∧
        sampleComp.summary.totalImprovements =
          (sampleComp.detailed.map fun u =>
            u.improvementsScores.length + u.improvementsMetrics.length).sum ∧
        sampleComp.summary.totalRegressions =
          (sampleComp.detailed.map fun u =>
            u.regressionsScores.length + u.regressionsMetrics.length).sum := by
  have hwf1 : ∀ r ∈ sampleBase, WFReport r := by
    intro r hr
    simp only [sampleBase, List.mem_cons, List.mem_singleton] at hr
    rcases hr with h | h | h <;> first
      | (subst h; simp [WFReport, rAb, rBb])
      | simp at h
  have hwf2 : ∀ r ∈ sampleCand, WFReport r := by
    intro r hr
    simp only [sampleCand, List.mem_cons, List.mem_singleton] at hr
    rcases hr with h | h | h <;> first
      | (subst h; simp [WFReport, rAc, rBc])
      | simp at h
  have hr1 : sampleBase.get? 1 = some rBb := by simp [sampleBase]
  have hskip : rBb.error.isSome ∨ rBb.scores = none ∨ rBb.metrics = none ∨
      ∃ r2, sampleCand.get? 1 = some r2 ∧
        (r2.error.isSome ∨ r2.scores = none ∨ r2.metrics = none) :=
    Or.inr (Or.inr (Or.inr ⟨rBc, by simp [sampleCand], Or.inl (by simp [rBc])⟩))
  exact ⟨sampleCompare, hwf1, hwf2, hr1, hskip,
    error_pair_excluded sampleBase sampleCand "main" "feature" sampleComp 1 rBb
      sampleCompare hwf1 hwf2 hr1 hskip⟩

/-- Counterexample to C2: with a one-report baseline and an empty
candidate sequence the engine does not stop at the shorter length — it
throws (reading `.error` of `undefined`), so no pairs at all are
"considered" and no result is returned. -/
theorem positional_truncation_cex :
    compareBranches
      [{ url := "https://a.example", scores := some [], metrics := some [] }] []
      "main" "feature" = .error () := rfl

/-- C2 (amended): when the candidate sequence is at least as long as the
baseline, the engine considers exactly `baseline.length` (= the shorter
length) pairs — one slot per baseline index — and candidate entries
beyond the baseline length contribute nothing.  (When the baseline is
strictly longer, the engine instead throws at the first extra index
whose baseline entry has no truthy error; see the counterexample.) -/
theorem positional_truncation_amended (rs1 rs2 : List Report) (n1 n2 : String)
    (hle : rs1.length ≤ rs2.length) :
    (∃ opts, comparePairs rs1 rs2 = .ok opts ∧ opts.length = rs1.length) ∧
    compareBranches rs1 rs2 n1 n2 = compareBranches rs1 (rs2.take rs1.length) n1 n2 := by
  obtain ⟨opts, hok⟩ := comparePairs_ok_of_le rs1 rs2 hle
  refine ⟨⟨opts, hok, comparePairs_length rs1 rs2 opts hok⟩, ?_⟩
  unfold compareBranches
  rw [← comparePairs_take]

/-- Witness for `positional_truncation_amended` on the sample sequences
(equal lengths). -/
theorem positional_truncation_amended_witness :
    sampleBase.length ≤ sampleCand.length ∧
      ((∃ opts, comparePairs sampleBase sampleCand = .ok opts ∧
          opts.length = sampleBase.length) ∧
        compareBranches sampleBase sampleCand "main" "feature" =
          compareBranches sampleBase (sampleCand.take sampleBase.length)
            "main" "feature") :=
  ⟨by decide, positional_truncation_amended sampleBase sampleCand "main" "feature"
    (by decide)⟩

/-- Counterexample to C3: on unequal-length inputs with the baseline
longer, `compareBranches` raises instead of returning a result (the
extra baseline entry has no error, so the guard dereferences the absent
candidate entry). -/
theorem comparison_totality_cex :
    compareBranches [rBb, rBb] [rBc] "main" "feature" = .error () := rfl

/-- C3 (amended): whenever the candidate sequence is at least as long as
the baseline — in particular for equal lengths, with arbitrary error
reports, missing `scores`/`metrics`, and non-numeric individual values —
`compareBranches` returns a `ComparisonResult` and never raises; and a
malformed (non-numeric) individual score or metric field is skipped by
itself, leaving the rest of the comparison intact. -/
theorem comparison_totality :
    (∀ (rs1 rs2 : List Report) (n1 n2 : String), rs1.length ≤ rs2.length →
      ∃ c, compareBranches rs1 rs2 n1 n2 = .ok c) ∧
    (∀ (k : String) (s1 s2 : List (String × JsVal)),
      scoreDeltas ((k, JsVal.other) :: s1) s2 = scoreDeltas s1 s2) ∧
    (∀ (k : String) (m1 m2 : List (String × JsVal)),
      metricDeltas ((k, JsVal.other) :: m1) m2 = metricDeltas m1 m2) := by
  refine ⟨?_, ?_, ?_⟩
  · intro rs1 rs2 n1 n2 hle
    obtain ⟨opts, hok⟩ := comparePairs_ok_of_le rs1 rs2 hle
    exact ⟨_, by unfold compareBranches; rw [hok]⟩
  · intro k s1 s2
    simp [scoreDeltas]
  · intro k m1 m2
    simp [metricDeltas]

/-- Witness for `comparison_totality` on the sample sequences. -/
theorem comparison_totality_witness :
    sampleBase.length ≤ sampleCand.length ∧
      ∃ c, compareBranches sampleBase sampleCand "main" "feature" = .ok c :=
  ⟨by decide, comparison_totality.1 sampleBase sampleCand "main" "feature" (by decide)⟩

/-- The candidate url plays no role in `comparePairs`. -/
theorem comparePairs_url_irrelevant (g : Report → String) :
    ∀ (rs1 rs2 : List Report),
      comparePairs rs1 (rs2.map fun r => { r with url := g r }) =
        comparePairs rs1 rs2 := by
  intro rs1
  induction rs1 with
  | nil => intro rs2; cases rs2 <;> rfl
  | cons r1 t1 ih =>
      intro rs2
      cases rs2 with
      | nil => rfl
      | cons r2 t2 =>
          show (comparePairs t1 (t2.map fun r => { r with url := g r })).map _ =
            (comparePairs t1 t2).map _
          rw [ih t2]
          rfl

/-- C10: every produced `UrlComparison` takes its `url` from the baseline
report of its pair; the candidate report's `url` is never consulted, so
relabelling every candidate url (by an arbitrary function) leaves the
whole comparison result unchanged. -/
theorem url_from_baseline :
    (∀ (r1 r2 : Report) (u : UrlComparison), pairOne r1 r2 = some u →
      u.url = r1.url) ∧
    (∀ (rs1 rs2 : List Report) (n1 n2 : String) (g : Report → String),
      compareBranches rs1 (rs2.map fun r => { r with url := g r }) n1 n2 =
        compareBranches rs1 rs2 n1 n2) := by
  constructor
  · intro r1 r2 u h
    rw [pairOne_some_elim h]
    rfl
  · intro rs1 rs2 n1 n2 g
    unfold compareBranches
    rw [comparePairs_url_irrelevant]

/-- Witness for `url_from_baseline`: the sample pair's comparison is
labelled with the baseline url. -/
theorem url_from_baseline_witness :
    pairOne rAb rAc = some sampleUrlA ∧ sampleUrlA.url = rAb.url :=
  ⟨pairA, url_from_baseline.1 rAb rAc sampleUrlA pairA⟩

/-- All ten digit characters are ASCII digits. -/
theorem digitChar_isDigit (k : Nat) (hk : k < 10) : (Nat.digitChar k).isDigit = true := by
  have h : ∀ j : Fin 10, (Nat.digitChar j.1).isDigit = true := by decide
  exact h ⟨k, hk⟩

/-- A digit character is not a decimal point. -/
theorem digit_ne_dot (c : Char) (h : c.isDigit = true) : (c != '.') = true := by
  by_contra hc
  rw [Bool.not_eq_true, bne_eq_false_iff_eq] at hc
  subst hc
  exact absurd h (by decide)

/-- A digit character is not a plus sign. -/
theorem digit_ne_plus (c : Char) (h : c.isDigit = true) : c ≠ '+' := by
  intro hc
  subst hc
  exact absurd h (by decide)

/-- `natDigitsGo` only ever adds digit characters. -/
theorem natDigitsGo_digits :
    ∀ (fuel n : Nat) (acc : List Char), (∀ c ∈ acc, c.isDigit = true) →
      ∀ c ∈ natDigitsGo fuel n acc, c.isDigit = true := by
  intro fuel
  induction fuel with
  | zero => intro n acc hacc; simpa [natDigitsGo] using hacc
  | succ f ih =>
      intro n acc hacc c hc
      simp only [natDigitsGo] at hc
      split at hc
      · exact hacc c hc
      · refine ih (n / 10) _ ?_ c hc
        intro c' hc'
        rcases List.mem_cons.mp hc' with h' | h'
        · subst h'
          exact digitChar_isDigit _ (Nat.mod_lt _ (by omega))
        · exact hacc c' h'

/-- `natDigitsGo` never discards accumulated characters. -/
theorem natDigitsGo_ne_nil :
    ∀ (fuel n : Nat) (acc : List Char), acc ≠ [] → natDigitsGo fuel n acc ≠ [] := by
  intro fuel
  induction fuel with
  | zero => intro n acc h; simpa [natDigitsGo] using h
  | succ f ih =>
      intro n acc h
      simp only [natDigitsGo]
      split
      · exact h
      · exact ih (n / 10) _ (by simp)

/-- The decimal rendering of a natural number is a non-empty string of
digit characters. -/
theorem natToString_spec (n : Nat) :
    ∃ d l, (natToString n).data = d :: l ∧ ∀ c ∈ d :: l, c.isDigit = true := by
  unfold natToString
  split
  · exact ⟨'0', [], rfl, by decide⟩
  · rename_i hn
    have hne : natDigitsGo (n + 1) n [] ≠ [] := by
      simp only [natDigitsGo]
      rw [if_neg hn]
      exact natDigitsGo_ne_nil n (n / 10) _ (by simp)
    obtain ⟨d, l, hdl⟩ := List.exists_cons_of_ne_nil hne
    refine ⟨d, l, by simpa using hdl, ?_⟩
    rw [← hdl]
    exact natDigitsGo_digits (n + 1) n [] (by simp)

/-- The decimal rendering of an integer starts with a minus sign or a
digit. -/
theorem intToString_spec (i : Int) :
    ∃ d l, (intToString i).data = d :: l ∧ (d = '-' ∨ d.isDigit = true) := by
  unfold intToString
  split
  · obtain ⟨d, l, hd, -⟩ := natToString_spec (-i).toNat
    refine ⟨'-', d :: l, ?_, Or.inl rfl⟩
    rw [String.data_append, hd]
    rfl
  · obtain ⟨d, l, hd, hdig⟩ := natToString_spec i.toNat
    exact ⟨d, l, hd, Or.inr (hdig d (by simp))⟩

/-- `pad3` is exactly three digit characters. -/
theorem pad3_data (k : Nat) :
    ∃ d1 d2 d3, (pad3 k).data = [d1, d2, d3] ∧
      d1.isDigit = true ∧ d2.isDigit = true ∧ d3.isDigit = true :=
  ⟨_, _, _, rfl, digitChar_isDigit _ (Nat.mod_lt _ (by omega)),
    digitChar_isDigit _ (Nat.mod_lt _ (by omega)),
    digitChar_isDigit _ (Nat.mod_lt _ (by omega))⟩

/-- Shape of a `toFixed(3)` rendering: an optional sign, at least one
leading digit, a decimal point, then exactly three digit characters. -/
theorem toFixed3_data (q : ℚ) :
    ∃ front d1 d2 d3, (toFixed3 q).data = front ++ '.' :: [d1, d2, d3] ∧
      d1.isDigit = true ∧ d2.isDigit = true ∧ d3.isDigit = true ∧
      ∃ e t, front = e :: t ∧ (e = '-' ∨ e.isDigit = true) := by
  obtain ⟨d1, d2, d3, hpd, h1, h2, h3⟩ :=
    pad3_data ((⌊|q| * 1000 + 1/2⌋).toNat % 1000)
  obtain ⟨nd, nl, hnat, hdig⟩ :=
    natToString_spec ((⌊|q| * 1000 + 1/2⌋).toNat / 1000)
  simp only [toFixed3]
  by_cases hq : q < 0
  · rw [if_pos hq]
    refine ⟨'-' :: nd :: nl, d1, d2, d3, ?_, h1, h2, h3, '-', nd :: nl, rfl, Or.inl rfl⟩
    simp only [String.data_append, hnat, hpd]
    simp
  · rw [if_neg hq]
    refine ⟨nd :: nl, d1, d2, d3, ?_, h1, h2, h3, nd, nl, rfl,
      Or.inr (hdig nd (by simp))⟩
    simp only [String.data_append, hnat, hpd]
    simp

/-- Taking characters up to the first dot from the right collects exactly
the three trailing digits. -/
theorem takeWhile_three_digits (d1 d2 d3 : Char) (rest : List Char)
    (h1 : d1.isDigit = true) (h2 : d2.isDigit = true) (h3 : d3.isDigit = true) :
    ((d3 :: d2 :: d1 :: '.' :: rest).takeWhile (fun c => c != '.')).length = 3 := by
  simp [List.takeWhile_cons, digit_ne_dot _ h1, digit_ne_dot _ h2, digit_ne_dot _ h3]

/-- A string whose data ends in a dot followed by three digits has
exactly three decimals after its last point. -/
theorem decimalsAfterPoint_of_data (s : String) (front : List Char)
    (d1 d2 d3 : Char) (hdata : s.data = front ++ '.' :: [d1, d2, d3])
    (h1 : d1.isDigit = true) (h2 : d2.isDigit = true) (h3 : d3.isDigit = true) :
    decimalsAfterPoint s = 3 := by
  unfold decimalsAfterPoint
  rw [hdata]
  have hrev : (front ++ '.' :: [d1, d2, d3]).reverse =
      d3 :: d2 :: d1 :: '.' :: front.reverse := by
    simp
  rw [hrev]
  exact takeWhile_three_digits d1 d2 d3 _ h1 h2 h3

/-- C9: `cumulative-layout-shift` values are rendered by `toFixed(3)` —
exactly three characters after the decimal point, ending in a digit (so
no `"ms"` unit suffix) — and every other metric is rendered as its
rounded integer value followed by `"ms"`; the rendered change is
prefixed with `"+"` exactly when the change is strictly positive. -/
theorem metric_formatting (v ch : ℚ) :
    (formatMetricValue "cumulative-layout-shift" v = toFixed3 v ∧
      decimalsAfterPoint (formatMetricValue "cumulative-layout-shift" v) = 3 ∧
      (∃ d, (formatMetricValue "cumulative-layout-shift" v).data.getLast? = some d ∧
        d.isDigit = true) ∧
      decimalsAfterPoint (formatMetricChange "cumulative-layout-shift" ch) = 3) ∧
    (∀ m, m ≠ "cumulative-layout-shift" →
      formatMetricValue m v = intToString (jsRound v) ++ "ms" ∧
      formatMetricChange m ch =
        (if 0 < ch then "+" else "") ++ intToString (jsRound ch) ++ "ms") ∧
    (∀ m, ((formatMetricChange m ch).data.head? = some '+') ↔ 0 < ch) := by
  have hfv : formatMetricValue "cumulative-layout-shift" v = toFixed3 v := by
    simp [formatMetricValue]
  have hfc : formatMetricChange "cumulative-layout-shift" ch =
      (if ch > 0 then "+" else "") ++ toFixed3 ch := by
    simp only [formatMetricChange]
    rw [if_pos trivial]
  refine ⟨⟨hfv, ?_, ?_, ?_⟩, ?_, ?_⟩
  · obtain ⟨front, d1, d2, d3, hdata, h1, h2, h3, -⟩ := toFixed3_data v
    rw [hfv]
    exact decimalsAfterPoint_of_data _ front d1 d2 d3 hdata h1 h2 h3
  · obtain ⟨front, d1, d2, d3, hdata, h1, h2, h3, -⟩ := toFixed3_data v
    refine ⟨d3, ?_, h3⟩
    rw [hfv, ← List.head?_reverse, hdata]
    have hrev : (front ++ '.' :: [d1, d2, d3]).reverse =
        d3 :: d2 :: d1 :: '.' :: front.reverse := by simp
    rw [hrev]
    rfl
  · obtain ⟨front, d1, d2, d3, hdata, h1, h2, h3, -⟩ := toFixed3_data ch
    refine decimalsAfterPoint_of_data _
      ((if ch > 0 then "+" else "" : String).data ++ front) d1 d2 d3 ?_ h1 h2 h3
    rw [hfc, String.data_append, hdata, List.append_assoc]
  · intro m hm
    constructor
    · simp [formatMetricValue, hm]
    · simp only [formatMetricChange]
      rw [if_neg hm]
  · intro m
    constructor
    · intro h
      by_contra hc
      push_neg at hc
      have hnp : ¬ (ch > 0) := not_lt.mpr hc
      by_cases hm : m = "cumulative-layout-shift"
      · rw [hm] at h
        have hbody : formatMetricChange "cumulative-layout-shift" ch =
            "" ++ toFixed3 ch := by
          simp only [formatMetricChange, if_neg hnp]
          rw [if_pos trivial]
        rw [hbody, String.data_append] at h
        rw [show ("" : String).data = [] from rfl, List.nil_append] at h
        obtain ⟨front, d1, d2, d3, hdata, -, -, -, e, t, hfront, he⟩ := toFixed3_data ch
        rw [hdata, hfront] at h
        simp only [List.cons_append, List.head?_cons, Option.some.injEq] at h
        rcases he with he | he
        · rw [he] at h; exact absurd h (by decide)
        · exact digit_ne_plus e he h
      · have hbody : formatMetricChange m ch =
            "" ++ intToString (jsRound ch) ++ "ms" := by
          simp only [formatMetricChange, if_neg hnp]
          rw [if_neg hm]
        rw [hbody] at h
        obtain ⟨d, l, hd, hdig⟩ := intToString_spec (jsRound ch)
        rw [String.data_append, String.data_append] at h
        rw [show ("" : String).data = [] from rfl, List.nil_append, hd] at h
        simp only [List.cons_append, List.head?_cons, Option.some.injEq] at h
        rcases hdig with he | he
        · rw [he] at h; exact absurd h (by decide)
        · exact digit_ne_plus d he h
    · intro h
      by_cases hm : m = "cumulative-layout-shift"
      · rw [hm]
        have hbody : formatMetricChange "cumulative-layout-shift" ch =
            "+" ++ toFixed3 ch := by
          rw [hfc, if_pos h]
        rw [hbody, String.data_append]
        rfl
      · have hbody : formatMetricChange m ch =
            "+" ++ intToString (jsRound ch) ++ "ms" := by
          simp only [formatMetricChange, if_pos h]
          rw [if_neg hm]
        rw [hbody, String.data_append, String.data_append]
        rfl

/-- Witness for `metric_formatting`: `"speed-index"` is one of the
metrics that are not `cumulative-layout-shift`. -/
theorem metric_formatting_witness :
    ("speed-index" : String) ≠ "cumulative-layout-shift" ∧
      (formatMetricValue "speed-index" 2000 = intToString (jsRound 2000) ++ "ms" ∧
        formatMetricChange "speed-index" 1500 =
          (if (0 : ℚ) < 1500 then "+" else "") ++ intToString (jsRound 1500) ++ "ms") :=
  ⟨by decide, (metric_formatting 2000 1500).2.1 "speed-index" (by decide)⟩
